import Mathlib

/-!
Verification of the zkrust ZKTeco protocol client core.

Shallow embedding of the Rust sources:
- `zkrust-core/src/checksum.rs` (checksum engine)
- `zkrust-core/src/command.rs`  (command registry)
- `zkrust-core/src/packet.rs`   (packet codec)
- `zkrust-core/src/auth.rs`     (auth-key derivation)
- `zkrust-core/src/session.rs`  (session state machine)
- `zkrust-transport/src/tcp.rs` (TCP wrapper framing)
- `zkrust/src/device.rs`        (connect handshake dispatch)

Machine integers are modelled as `Nat` with explicit `% 2 ^ w` at the
points where the Rust code wraps; byte buffers are `List Nat` whose
elements are meant to be `< 256` (hypotheses state this where needed);
fallible operations return `Except`.
-/

namespace ZKRust

/-- Little-endian byte pair of a 16-bit value, as written by
`u16::to_le_bytes` / `BufMut::put_u16_le`. -/
def toLe16 (n : Nat) : List Nat :=
  [n % 256, n / 256 % 256]

/-- 16-bit value read from two little-endian bytes, as read by
`u16::from_le_bytes` / `Buf::get_u16_le`. -/
def fromLe16 (b0 b1 : Nat) : Nat :=
  b0 + 256 * b1

/-- Little-endian byte quadruple of a 32-bit value (`u32::to_le_bytes` /
`BufMut::put_u32_le`). -/
def u32le (n : Nat) : List Nat :=
  [n % 256, n / 256 % 256, n / 65536 % 256, n / 16777216 % 256]

/-- 32-bit value read from four little-endian bytes
(`u32::from_le_bytes`). -/
def fromLe32 (b0 b1 b2 b3 : Nat) : Nat :=
  b0 + 256 * b1 + 65536 * b2 + 16777216 * b3

/-! ## Checksum engine (`zkrust-core/src/checksum.rs`) -/

/-- The `while sum > 0xFFFF { sum -= 0xFFFF }` loop of `calculate`
(`checksum.rs` lines 56-58 and 62-64), embedded with an explicit fuel
argument.  Each iteration removes `0xFFFF ≥ 1`, so fuel `n` (supplied by
`foldFFFF`) always suffices for input `n`.  The subtraction is exact
because the loop guard guarantees `0xFFFF < n`. -/
def foldFFFFAux : Nat → Nat → Nat
  | 0, n => n
  | fuel + 1, n => if 0xFFFF < n then foldFFFFAux fuel (n - 0xFFFF) else n

/-- Result of running the `while sum > 0xFFFF { sum -= 0xFFFF }` loop to
completion on `n`. -/
def foldFFFF (n : Nat) : Nat :=
  foldFFFFAux n n

/-- The summation loop of `calculate` (`checksum.rs` lines 45-59): the
stream is consumed in `chunks(2)`; a full chunk is read as a little-endian
16-bit word, a trailing odd byte as the low byte of a word; each addition
is a `u32` `wrapping_add` (hence `% 2 ^ 32`) followed by the
subtract-`0xFFFF` loop. -/
def sumWords : List Nat → Nat → Nat
  | [], sum => sum
  | [b], sum => foldFFFF ((sum + b) % 2 ^ 32)
  | b0 :: b1 :: rest, sum => sumWords rest (foldFFFF ((sum + fromLe16 b0 b1) % 2 ^ 32))

/-- The logical byte stream the checksum is computed over
(`checksum.rs` lines 33-40): command, zeroed checksum field, session id,
reply id, then the payload. -/
def checksumStream (command session_id reply_id : Nat) (payload : List Nat) : List Nat :=
  toLe16 command ++ [0, 0] ++ toLe16 session_id ++ toLe16 reply_id ++ payload

/-- `checksum::calculate` (`checksum.rs` lines 31-79): sum the stream,
run the final subtract-`0xFFFF` loop (lines 62-64), then `!sum as u16`:
bitwise `u32` complement truncated to 16 bits. -/
def calculate (command session_id reply_id : Nat) (payload : List Nat) : Nat :=
  let sum := foldFFFF (sumWords (checksumStream command session_id reply_id payload) 0)
  (0xFFFFFFFF - sum) % 2 ^ 16

/-- `checksum::verify` (`checksum.rs` lines 82-91). -/
def verify (command session_id reply_id : Nat) (payload : List Nat) (expected : Nat) : Bool :=
  calculate command session_id reply_id payload == expected

/-- Modelled from the spec (section 4.2) for the refinement claim C1: the
reference checksum.  Build the stream `[command_lo, command_hi, 0x00,
0x00, session_lo, session_hi, reply_lo, reply_hi, ...payload]`, sum it as
consecutive little-endian 16-bit words (an odd trailing byte is the low
byte of a word whose high byte is 0), after each addition subtract
`0xFFFF` while the running sum exceeds `0xFFFF` (the `foldFFFF` loop),
repeat the same fold after the full stream, and return the bitwise NOT of
the final sum truncated to 16 bits. -/
def specSumWords : List Nat → Nat → Nat
  | [], sum => sum
  | [b], sum => foldFFFF (sum + b)
  | b0 :: b1 :: rest, sum => specSumWords rest (foldFFFF (sum + (b0 + 256 * b1)))

/-- The reference checksum value of claim C1 (see `specSumWords`). -/
def checksumSpec (command session_id reply_id : Nat) (payload : List Nat) : Nat :=
  let stream := [command % 256, command / 256 % 256, 0, 0,
    session_id % 256, session_id / 256 % 256,
    reply_id % 256, reply_id / 256 % 256] ++ payload
  0xFFFF - foldFFFF (specSumWords stream 0)

/-! ### Checksum lemmas -/

theorem foldFFFFAux_le (fuel : Nat) : ∀ n, n ≤ 0xFFFF + fuel * 0xFFFF → foldFFFFAux fuel n ≤ 0xFFFF := by
  induction fuel with
  | zero => intro n h; simpa [foldFFFFAux] using h
  | succ fuel ih =>
    intro n h
    by_cases hn : 0xFFFF < n
    · simp only [foldFFFFAux, if_pos hn]
      exact ih (n - 0xFFFF) (by omega)
    · simpa [foldFFFFAux, hn] using by omega

theorem foldFFFF_le (n : Nat) : foldFFFF n ≤ 0xFFFF := by
  refine foldFFFFAux_le n n ?_
  have : n ≤ n * 0xFFFF := Nat.le_mul_of_pos_right n (by omega)
  omega

theorem foldFFFF_of_le (n : Nat) (h : n ≤ 0xFFFF) : foldFFFF n = n := by
  cases n with
  | zero => rfl
  | succ m => simp [foldFFFF, foldFFFFAux, Nat.not_lt.mpr h]

theorem sumWords_eq_specSumWords (l : List Nat) (sum : Nat) :
    (∀ b ∈ l, b < 256) → sum ≤ 0xFFFF → sumWords l sum = specSumWords l sum := by
  induction l, sum using sumWords.induct with
  | case1 sum => intro _ _; rfl
  | case2 b sum =>
    intro hb hsum
    have hb' : b < 256 := hb b (by simp)
    simp only [sumWords, specSumWords]
    rw [Nat.mod_eq_of_lt (by omega)]
  | case3 b0 b1 rest sum ih =>
    intro hb hsum
    have h0 : b0 < 256 := hb b0 (by simp)
    have h1 : b1 < 256 := hb b1 (by simp)
    have hrest : ∀ b ∈ rest, b < 256 := fun b h => hb b (by simp [h])
    simp only [sumWords, specSumWords, fromLe16] at ih ⊢
    rw [Nat.mod_eq_of_lt (by omega : sum + (b0 + 256 * b1) < 2 ^ 32)] at ih ⊢
    exact ih hrest (foldFFFF_le _)

theorem specSumWords_le (l : List Nat) (sum : Nat) :
    sum ≤ 0xFFFF → specSumWords l sum ≤ 0xFFFF := by
  induction l, sum using specSumWords.induct with
  | case1 sum => intro h; simpa [specSumWords] using h
  | case2 b sum => intro _; simpa [specSumWords] using foldFFFF_le _
  | case3 b0 b1 rest sum ih => intro _; exact ih (foldFFFF_le _)

/-- Claim C1: for every command code, session id, reply id and payload,
`checksum::calculate` returns exactly the reference value described in
the spec: sum the stream `[command_lo, command_hi, 0x00, 0x00,
session_lo, session_hi, reply_lo, reply_hi, ...payload]` as consecutive
little-endian 16-bit words (an odd trailing byte is the low byte of a
word with high byte 0), after each addition subtract `0xFFFF` while the
running sum exceeds `0xFFFF`, repeat the same fold after the full
stream, and return the bitwise NOT of the final sum truncated to
16 bits. -/
theorem checksum_calculate_eq_reference (command session_id reply_id : Nat) (payload : List Nat)
    (hp : ∀ b ∈ payload, b < 256) :
    calculate command session_id reply_id payload = checksumSpec command session_id reply_id payload := by
  have hs : checksumStream command session_id reply_id payload =
      [command % 256, command / 256 % 256, 0, 0,
        session_id % 256, session_id / 256 % 256,
        reply_id % 256, reply_id / 256 % 256] ++ payload := rfl
  have hbytes : ∀ b ∈ checksumStream command session_id reply_id payload, b < 256 := by
    intro b hb
    rw [hs] at hb
    rcases List.mem_append.mp hb with h | h
    · simp only [List.mem_cons, List.not_mem_nil, or_false] at h
      rcases h with h | h | h | h | h | h | h | h <;> subst h <;> omega
    · exact hp b h
  simp only [calculate, checksumSpec, hs]
  rw [sumWords_eq_specSumWords _ _ (hs ▸ hbytes) (by omega)]
  have ht := specSumWords_le ([command % 256, command / 256 % 256, 0, 0,
    session_id % 256, session_id / 256 % 256,
    reply_id % 256, reply_id / 256 % 256] ++ payload) 0 (by omega)
  rw [foldFFFF_of_le _ ht]
  omega

/-- Witness for C1 at a concrete input. -/
theorem checksum_calculate_eq_reference_witness :
    (∀ b ∈ [1, 2, 3], b < 256) ∧ calculate 1000 0 0 [1, 2, 3] = checksumSpec 1000 0 0 [1, 2, 3] :=
  ⟨by decide, checksum_calculate_eq_reference 1000 0 0 [1, 2, 3] (by decide)⟩

/-! ## Command registry (`zkrust-core/src/command.rs`) -/

/-- `Command` enum (`command.rs` lines 12-112): the closed set of
protocol command codes. -/
inductive Command
  | Connect | Exit | EnableDevice | DisableDevice | Restart | PowerOff | Sleep | Resume
  | CaptureFinger | TestTemp | CaptureImage | RefreshData | RefreshOption | TestVoice
  | GetVersion | ChangeSpeed | Auth
  | PrepareData | Data | FreeData
  | DbRrq | UserWrq | UserTempRrq | UserTempWrq | OptionsRrq | OptionsWrq | AttLogRrq
  | ClearData | ClearAttLog | DeleteUser | DeleteUserTemp | ClearAdmin
  | UserGrpRrq | UserGrpWrq | UserTzRrq | UserTzWrq | GrpTzRrq | GrpTzWrq | TzRrq | TzWrq
  | UlgRrq | UlgWrq | Unlock | ClearAcc | ClearOpLog | OpLogRrq
  | GetFreeSizes | EnableClock | StartVerify | StartEnroll | CancelCapture | StateRrq
  | WriteLcd | ClearLcd | GetPinWidth
  | SmsWrq | SmsRrq | DeleteSms | UDataWrq | DeleteUData
  | DoorStateRrq | WriteMifare | EmptyMifare
  | GetTime | SetTime
  | RegEvent
  | AckOk | AckError | AckData | AckRetry | AckRepeat | AckUnauth
  | AckUnknown | AckErrorCmd | AckErrorInit | AckErrorData
deriving DecidableEq

namespace Command

/-- `cmd as u16` (`command.rs` lines 200-204, discriminants from the
enum declaration at lines 12-112). -/
def toCode : Command → Nat
  | .Connect => 1000
  | .Exit => 1001
  | .EnableDevice => 1002
  | .DisableDevice => 1003
  | .Restart => 1004
  | .PowerOff => 1005
  | .Sleep => 1006
  | .Resume => 1007
  | .CaptureFinger => 1009
  | .TestTemp => 1011
  | .CaptureImage => 1012
  | .RefreshData => 1013
  | .RefreshOption => 1014
  | .TestVoice => 1017
  | .GetVersion => 1100
  | .ChangeSpeed => 1101
  | .Auth => 1102
  | .PrepareData => 1500
  | .Data => 1501
  | .FreeData => 1502
  | .DbRrq => 7
  | .UserWrq => 8
  | .UserTempRrq => 9
  | .UserTempWrq => 10
  | .OptionsRrq => 11
  | .OptionsWrq => 12
  | .AttLogRrq => 13
  | .ClearData => 14
  | .ClearAttLog => 15
  | .DeleteUser => 18
  | .DeleteUserTemp => 19
  | .ClearAdmin => 20
  | .UserGrpRrq => 21
  | .UserGrpWrq => 22
  | .UserTzRrq => 23
  | .UserTzWrq => 24
  | .GrpTzRrq => 25
  | .GrpTzWrq => 26
  | .TzRrq => 27
  | .TzWrq => 28
  | .UlgRrq => 29
  | .UlgWrq => 30
  | .Unlock => 31
  | .ClearAcc => 32
  | .ClearOpLog => 33
  | .OpLogRrq => 34
  | .GetFreeSizes => 50
  | .EnableClock => 57
  | .StartVerify => 60
  | .StartEnroll => 61
  | .CancelCapture => 62
  | .StateRrq => 64
  | .WriteLcd => 66
  | .ClearLcd => 67
  | .GetPinWidth => 69
  | .SmsWrq => 70
  | .SmsRrq => 71
  | .DeleteSms => 72
  | .UDataWrq => 73
  | .DeleteUData => 74
  | .DoorStateRrq => 75
  | .WriteMifare => 76
  | .EmptyMifare => 78
  | .GetTime => 201
  | .SetTime => 202
  | .RegEvent => 500
  | .AckOk => 2000
  | .AckError => 2001
  | .AckData => 2002
  | .AckRetry => 2003
  | .AckRepeat => 2004
  | .AckUnauth => 2005
  | .AckUnknown => 0xFFFF
  | .AckErrorCmd => 0xFFFD
  | .AckErrorInit => 0xFFFC
  | .AckErrorData => 0xFFFB

/-- `TryFrom<u16> for Command` (`command.rs` lines 206-290); `none`
models `Err(Error::UnknownCommand(value))`. -/
def fromCode : Nat → Option Command
  | 1000 => some .Connect
  | 1001 => some .Exit
  | 1002 => some .EnableDevice
  | 1003 => some .DisableDevice
  | 1004 => some .Restart
  | 1005 => some .PowerOff
  | 1006 => some .Sleep
  | 1007 => some .Resume
  | 1009 => some .CaptureFinger
  | 1011 => some .TestTemp
  | 1012 => some .CaptureImage
  | 1013 => some .RefreshData
  | 1014 => some .RefreshOption
  | 1017 => some .TestVoice
  | 1100 => some .GetVersion
  | 1101 => some .ChangeSpeed
  | 1102 => some .Auth
  | 1500 => some .PrepareData
  | 1501 => some .Data
  | 1502 => some .FreeData
  | 7 => some .DbRrq
  | 8 => some .UserWrq
  | 9 => some .UserTempRrq
  | 10 => some .UserTempWrq
  | 11 => some .OptionsRrq
  | 12 => some .OptionsWrq
  | 13 => some .AttLogRrq
  | 14 => some .ClearData
  | 15 => some .ClearAttLog
  | 18 => some .DeleteUser
  | 19 => some .DeleteUserTemp
  | 20 => some .ClearAdmin
  | 21 => some .UserGrpRrq
  | 22 => some .UserGrpWrq
  | 23 => some .UserTzRrq
  | 24 => some .UserTzWrq
  | 25 => some .GrpTzRrq
  | 26 => some .GrpTzWrq
  | 27 => some .TzRrq
  | 28 => some .TzWrq
  | 29 => some .UlgRrq
  | 30 => some .UlgWrq
  | 31 => some .Unlock
  | 32 => some .ClearAcc
  | 33 => some .ClearOpLog
  | 34 => some .OpLogRrq
  | 50 => some .GetFreeSizes
  | 57 => some .EnableClock
  | 60 => some .StartVerify
  | 61 => some .StartEnroll
  | 62 => some .CancelCapture
  | 64 => some .StateRrq
  | 66 => some .WriteLcd
  | 67 => some .ClearLcd
  | 69 => some .GetPinWidth
  | 70 => some .SmsWrq
  | 71 => some .SmsRrq
  | 72 => some .DeleteSms
  | 73 => some .UDataWrq
  | 74 => some .DeleteUData
  | 75 => some .DoorStateRrq
  | 76 => some .WriteMifare
  | 78 => some .EmptyMifare
  | 201 => some .GetTime
  | 202 => some .SetTime
  | 500 => some .RegEvent
  | 2000 => some .AckOk
  | 2001 => some .AckError
  | 2002 => some .AckData
  | 2003 => some .AckRetry
  | 2004 => some .AckRepeat
  | 2005 => some .AckUnauth
  | 0xFFFF => some .AckUnknown
  | 0xFFFD => some .AckErrorCmd
  | 0xFFFC => some .AckErrorInit
  | 0xFFFB => some .AckErrorData
  | _ => none

/-- `Command::is_error` (`command.rs` lines 143-151). -/
def is_error : Command → Bool
  | .AckError | .AckErrorCmd | .AckErrorInit | .AckErrorData => true
  | _ => false

theorem fromCode_toCode (c : Command) : fromCode (toCode c) = some c := by
  cases c <;> rfl

theorem toCode_lt (c : Command) : toCode c < 65536 := by
  cases c <;> simp [toCode]

end Command

/-! ## Core error type (`zkrust-core/src/error.rs`) -/

/-- `Error` enum (`error.rs` lines 9-74).  `Io` carries only a message
here, standing in for `std::io::Error`. -/
inductive Error
  | packetTooShort (expected actual : Nat)
  | checksumMismatch (expected received : Nat)
  | unknownCommand (code : Nat)
  | invalidSessionState (msg : String)
  | sessionNotInitialized
  | deviceError (command : Command)
  | authenticationRequired
  | authenticationFailed
  | timeout (seconds : Nat)
  | payloadTooLarge (size max : Nat)
  | invalidReplyId (expected actual : Nat)
  | ioError (msg : String)
deriving DecidableEq

/-! ## Packet codec (`zkrust-core/src/packet.rs`) -/

/-- `Packet` struct (`packet.rs` lines 41-53). -/
structure Packet where
  command : Command
  session_id : Nat
  reply_id : Nat
  payload : List Nat
deriving DecidableEq

namespace Packet

/-- `Packet::HEADER_SIZE` (`packet.rs` line 57). -/
def HEADER_SIZE : Nat := 8

/-- `Packet::MAX_PAYLOAD_SIZE` (`packet.rs` line 60). -/
def MAX_PAYLOAD_SIZE : Nat := 65535 - HEADER_SIZE

/-- `Packet::checksum` (`packet.rs` lines 109-116). -/
def checksum (p : Packet) : Nat :=
  calculate p.command.toCode p.session_id p.reply_id p.payload

/-- `Packet::encode` (`packet.rs` lines 133-147): little-endian header
(command, checksum, session id, reply id) followed by the payload. -/
def encode (p : Packet) : List Nat :=
  toLe16 p.command.toCode ++ toLe16 p.checksum ++ toLe16 p.session_id ++ toLe16 p.reply_id
    ++ p.payload

/-- `Packet::decode` (`packet.rs` lines 169-208).  The source first
rejects buffers shorter than `HEADER_SIZE`, then reads the four
little-endian header words, resolves the command (propagating
`UnknownCommand`), takes the remaining bytes as payload, recomputes the
checksum and compares it with the received one.  A buffer with at least
8 bytes is exactly one matching the first pattern. -/
def decode (buf : List Nat) : Except Error Packet :=
  match buf with
  | b0 :: b1 :: b2 :: b3 :: b4 :: b5 :: b6 :: b7 :: rest =>
    let command_raw := fromLe16 b0 b1
    let checksum_received := fromLe16 b2 b3
    let session_id := fromLe16 b4 b5
    let reply_id := fromLe16 b6 b7
    match Command.fromCode command_raw with
    | none => .error (.unknownCommand command_raw)
    | some command =>
      let packet : Packet := ⟨command, session_id, reply_id, rest⟩
      let checksum_calculated := packet.checksum
      if checksum_calculated ≠ checksum_received then
        .error (.checksumMismatch checksum_calculated checksum_received)
      else
        .ok packet
  | _ => .error (.packetTooShort 8 buf.length)

end Packet

/-- Modelled from the spec (claim C3's wording) for the refinement
theorem: decoding fails with `PacketTooShort {expected: 8, actual}` if
and only if fewer than 8 bytes are supplied; otherwise it fails with
`UnknownCommand` if and only if the first little-endian 16-bit word is
outside the closed command set (even when the checksum field is also
wrong); otherwise it fails with `ChecksumMismatch {expected, received}`
if and only if the checksum recomputed over the decoded command, session
id, reply id and remaining payload differs from the header's checksum
field; otherwise it returns the packet built from exactly those header
fields with all remaining bytes as payload. -/
def decodeSpec (buf : List Nat) : Except Error Packet :=
  if buf.length < 8 then .error (.packetTooShort 8 buf.length)
  else
    let command_raw := fromLe16 (buf.getD 0 0) (buf.getD 1 0)
    match Command.fromCode command_raw with
    | none => .error (.unknownCommand command_raw)
    | some command =>
      let session_id := fromLe16 (buf.getD 4 0) (buf.getD 5 0)
      let reply_id := fromLe16 (buf.getD 6 0) (buf.getD 7 0)
      let payload := buf.drop 8
      let expected := calculate command.toCode session_id reply_id payload
      let received := fromLe16 (buf.getD 2 0) (buf.getD 3 0)
      if expected ≠ received then .error (.checksumMismatch expected received)
      else .ok ⟨command, session_id, reply_id, payload⟩

theorem calculate_lt (command session_id reply_id : Nat) (payload : List Nat) :
    calculate command session_id reply_id payload < 65536 := by
  simp only [calculate]
  omega

/-- Claim C3: `decode` never panics (it is a total function) and follows
the exact failure order of the spec: `PacketTooShort {expected: 8,
actual}` iff the buffer has fewer than 8 bytes, else `UnknownCommand`
iff the first little-endian word is outside the closed command set (even
when the checksum field is also wrong), else `ChecksumMismatch
{expected, received}` iff the recomputed checksum differs from the
header field, else the packet built from exactly those header fields
with the remaining bytes as payload.  Stated as equality with
`decodeSpec`, the direct rendering of the claim. -/
theorem decode_eq_decodeSpec (buf : List Nat) : Packet.decode buf = decodeSpec buf := by
  rcases buf with _ | ⟨b0, _ | ⟨b1, _ | ⟨b2, _ | ⟨b3, _ | ⟨b4, _ | ⟨b5, _ | ⟨b6, _ | ⟨b7, rest⟩⟩⟩⟩⟩⟩⟩⟩ <;>
    rfl

/-- Claim C2: for every packet (any command from the closed set, any
16-bit session id and reply id, any payload), `decode (encode p)`
succeeds and reproduces the command, session id, reply id and payload
exactly. -/
theorem encode_decode_roundtrip (cmd : Command) (sid rid : Nat) (payload : List Nat)
    (hs : sid < 65536) (hr : rid < 65536) :
    Packet.decode (Packet.encode ⟨cmd, sid, rid, payload⟩) = Except.ok ⟨cmd, sid, rid, payload⟩ := by
  have hcode := Command.toCode_lt cmd
  have hcs := calculate_lt cmd.toCode sid rid payload
  simp only [Packet.encode, Packet.checksum, toLe16, List.cons_append, List.nil_append,
    Packet.decode]
  have h1 : fromLe16 (cmd.toCode % 256) (cmd.toCode / 256 % 256) = cmd.toCode := by
    simp only [fromLe16]; omega
  have h2 : fromLe16 (sid % 256) (sid / 256 % 256) = sid := by
    simp only [fromLe16]; omega
  have h3 : fromLe16 (rid % 256) (rid / 256 % 256) = rid := by
    simp only [fromLe16]; omega
  have h4 : fromLe16 (calculate cmd.toCode sid rid payload % 256)
      (calculate cmd.toCode sid rid payload / 256 % 256) = calculate cmd.toCode sid rid payload := by
    simp only [fromLe16]; omega
  simp [h1, h2, h3, h4, Command.fromCode_toCode, Packet.checksum]

/-- Witness for C2 at a concrete input. -/
theorem encode_decode_roundtrip_witness :
    (0 : Nat) < 65536 ∧ (65534 : Nat) < 65536 ∧
      Packet.decode (Packet.encode ⟨Command.Connect, 0, 65534, [1, 2, 3, 4]⟩) =
        Except.ok ⟨Command.Connect, 0, 65534, [1, 2, 3, 4]⟩ :=
  ⟨by decide, by decide, encode_decode_roundtrip Command.Connect 0 65534 [1, 2, 3, 4]
    (by decide) (by decide)⟩

/-- Claim C10: `encode` is total and enforces no payload size limit:
every packet encodes to exactly `8 + payload length` bytes (also beyond
`MAX_PAYLOAD_SIZE = 65527`), and no codec operation ever produces the
`PayloadTooLarge` error. -/
theorem encode_total_no_payload_limit :
    (∀ p : Packet, (Packet.encode p).length = 8 + p.payload.length) ∧
    (∀ (buf : List Nat) (e : Error), Packet.decode buf = Except.error e →
      ∀ s m, e ≠ Error.payloadTooLarge s m) ∧
    Packet.MAX_PAYLOAD_SIZE = 65527 := by
  refine ⟨?_, ?_, rfl⟩
  · intro p
    simp [Packet.encode, toLe16]
    omega
  · intro buf e h s m
    unfold Packet.decode at h
    split at h
    · rename_i b0 b1 b2 b3 b4 b5 b6 b7 rest
      simp only at h
      split at h
      · simp only [Except.error.injEq] at h
        subst h
        simp
      · split at h
        · simp only [Except.error.injEq] at h
          subst h
          simp
        · simp at h
    · simp only [Except.error.injEq] at h
      subst h
      simp

/-- Witness for C10 at a concrete input. -/
theorem encode_total_no_payload_limit_witness :
    Packet.decode [1, 2, 3] = Except.error (Error.packetTooShort 8 3) ∧
      (∀ s m, Error.packetTooShort 8 3 ≠ Error.payloadTooLarge s m) :=
  ⟨by rfl, fun s m =>
    encode_total_no_payload_limit.2.1 [1, 2, 3] (Error.packetTooShort 8 3) (by rfl) s m⟩

/-! ## Auth-key derivation (`zkrust-core/src/auth.rs`) -/

/-- The bit-reversal loop of `make_commkey` (`auth.rs` lines 42-49):
`for i in 0..32 { if password & (1 << i) != 0 { k = (k << 1) | 1 } else
{ k = k << 1 } }`.  The `% 2 ^ 32` models the truncating `u32` shift;
since `(k << 1) | 1` sets the lowest bit of an even number, it equals
`2 * k + 1` truncated. -/
def reverseBits (password : Nat) : Nat :=
  (List.range 32).foldl
    (fun k i => if password &&& (1 <<< i) ≠ 0 then (2 * k + 1) % 2 ^ 32 else 2 * k % 2 ^ 32) 0

/-- `auth::make_commkey` (`auth.rs` lines 40-84): bit-reverse the
password, `wrapping_add` the session id, XOR the little-endian bytes
with `'Z' 'K' 'S' 'O'`, swap the two little-endian 16-bit halves, then
XOR bytes 0, 1, 3 with `ticks` and overwrite byte 2 with `ticks`.
`r2` (the byte the source writes into `result[2]` before line 80
overwrites it) is bound for fidelity but unused. -/
def make_commkey (password session_id ticks : Nat) : List Nat :=
  let k := (reverseBits password + session_id) % 2 ^ 32
  let x0 := (k % 256) ^^^ 0x5A
  let x1 := (k / 256 % 256) ^^^ 0x4B
  let x2 := (k / 65536 % 256) ^^^ 0x53
  let x3 := (k / 16777216 % 256) ^^^ 0x4F
  let low := fromLe16 x0 x1
  let high := fromLe16 x2 x3
  let r0 := high % 256
  let r1 := high / 256 % 256
  let r3 := low / 256 % 256
  [r0 ^^^ ticks, r1 ^^^ ticks, ticks, r3 ^^^ ticks]

/-- Modelled from the spec (claim C4's reference steps): (1) reverse the
bit order of the 32-bit password (bit 0 becomes bit 31), expressed as a
sum of repositioned bits. -/
def bitReverseSpec (password : Nat) : Nat :=
  (List.range 32).foldl (fun acc i => acc + password / 2 ^ i % 2 * 2 ^ (31 - i)) 0

/-- Modelled from the spec (claim C4's reference steps 2-5): add the
session id with 32-bit wraparound, XOR little-endian bytes 0-3 with
`'Z' 'K' 'S' 'O'`, swap the 16-bit halves (the high half now occupies
bytes 0-1, the low half bytes 2-3), then XOR bytes 0, 1, 3 with ticks
and overwrite byte 2 with ticks. -/
def make_commkey_spec (password session_id ticks : Nat) : List Nat :=
  let k := (bitReverseSpec password + session_id) % 2 ^ 32
  let _x0 := (k % 256) ^^^ 0x5A
  let x1 := (k / 256 % 256) ^^^ 0x4B
  let x2 := (k / 65536 % 256) ^^^ 0x53
  let x3 := (k / 16777216 % 256) ^^^ 0x4F
  [x2 ^^^ ticks, x3 ^^^ ticks, ticks, x1 ^^^ ticks]

theorem and_pow_ne_zero_iff (p n : Nat) : (p &&& (1 <<< n) ≠ 0) ↔ p / 2 ^ n % 2 = 1 := by
  rw [Nat.shiftLeft_eq, one_mul, Nat.and_two_pow]
  have hpow : (2 : Nat) ^ n ≠ 0 := by positivity
  cases h : p.testBit n with
  | false =>
    rw [Nat.testBit_to_div_mod] at h
    simp only [decide_eq_false_iff_not] at h
    simp [h]
  | true =>
    rw [Nat.testBit_to_div_mod] at h
    simp only [decide_eq_true_eq] at h
    simp [h, hpow]

theorem reverseBits_eq_spec (p : Nat) : reverseBits p = bitReverseSpec p := by
  have key : ∀ n, n ≤ 32 →
      ((List.range n).foldl
        (fun k i => if p &&& (1 <<< i) ≠ 0 then (2 * k + 1) % 2 ^ 32 else 2 * k % 2 ^ 32) 0)
          < 2 ^ n ∧
      (List.range n).foldl (fun acc i => acc + p / 2 ^ i % 2 * 2 ^ (31 - i)) 0 =
        ((List.range n).foldl
          (fun k i => if p &&& (1 <<< i) ≠ 0 then (2 * k + 1) % 2 ^ 32 else 2 * k % 2 ^ 32) 0)
            * 2 ^ (32 - n) := by
    intro n
    induction n with
    | zero => intro _; simp
    | succ n ih =>
      intro hn
      obtain ⟨hlt, heq⟩ := ih (by omega)
      rw [List.range_succ, List.foldl_append, List.foldl_append]
      simp only [List.foldl_cons, List.foldl_nil]
      set K := (List.range n).foldl
        (fun k i => if p &&& (1 <<< i) ≠ 0 then (2 * k + 1) % 2 ^ 32 else 2 * k % 2 ^ 32) 0 with hK
      have hstep : (if p &&& (1 <<< n) ≠ 0 then (2 * K + 1) % 2 ^ 32 else 2 * K % 2 ^ 32) =
          2 * K + p / 2 ^ n % 2 := by
        have hb : 2 * K + 1 < 2 ^ 32 := by
          have h1 : (2 : Nat) ^ (n + 1) ≤ 2 ^ 32 := Nat.pow_le_pow_right (by omega) (by omega)
          have h2 : 2 * K + 1 < 2 ^ (n + 1) := by rw [pow_succ]; omega
          omega
        by_cases hcond : p &&& (1 <<< n) ≠ 0
        · rw [if_pos hcond, Nat.mod_eq_of_lt hb, (and_pow_ne_zero_iff p n).mp hcond]
        · rw [if_neg hcond]
          have : p / 2 ^ n % 2 = 0 := by
            have := (and_pow_ne_zero_iff p n).not.mp hcond
            omega
          rw [this, Nat.mod_eq_of_lt (by omega)]
          omega
      rw [hstep]
      constructor
      · rw [pow_succ]; omega
      · rw [heq]
        have h32 : 32 - n = (31 - n) + 1 := by omega
        have h31 : 32 - (n + 1) = 31 - n := by omega
        rw [h32, h31, pow_succ]
        ring
  have h32 := (key 32 (by omega)).2
  simp only [Nat.sub_self, pow_zero, mul_one] at h32
  exact h32.symm

/-- Claim C4: `make_commkey` returns exactly the 4-byte key given by the
spec's reference steps, for every password, session id and ticks
value. -/
theorem make_commkey_eq_spec (password session_id ticks : Nat) :
    make_commkey password session_id ticks = make_commkey_spec password session_id ticks := by
  have h8 : ∀ a b : Nat, a < 256 → b < 256 → a ^^^ b < 256 := by
    intro a b ha hb
    have := Nat.xor_lt_two_pow (n := 8) (by omega : a < 2 ^ 8) (by omega : b < 2 ^ 8)
    omega
  simp only [make_commkey, make_commkey_spec, fromLe16]
  rw [reverseBits_eq_spec]
  set k := (bitReverseSpec password + session_id) % 2 ^ 32 with hk
  have hx0 := h8 (k % 256) 0x5A (by omega) (by omega)
  have hx1 := h8 (k / 256 % 256) 0x4B (by omega) (by omega)
  have hx2 := h8 (k / 65536 % 256) 0x53 (by omega) (by omega)
  have hx3 := h8 (k / 16777216 % 256) 0x4F (by omega) (by omega)
  have e0 : ((k / 65536 % 256 ^^^ 0x53) + 256 * (k / 16777216 % 256 ^^^ 0x4F)) % 256 =
      k / 65536 % 256 ^^^ 0x53 := by omega
  have e1 : ((k / 65536 % 256 ^^^ 0x53) + 256 * (k / 16777216 % 256 ^^^ 0x4F)) / 256 % 256 =
      k / 16777216 % 256 ^^^ 0x4F := by omega
  have e3 : ((k % 256 ^^^ 0x5A) + 256 * (k / 256 % 256 ^^^ 0x4B)) / 256 % 256 =
      k / 256 % 256 ^^^ 0x4B := by omega
  rw [e0, e1, e3]

/-- Claim C5, evaluated at the failing input: with password 0 and ticks
50 the session ids 100 and 200 yield the SAME key (the repository's own
unit test `test_make_commkey_different_sessions` asserts they differ).
Byte 2 of the key is overwritten with ticks, so any two inputs whose
derived 32-bit values differ only in the low byte collide; the same
happens for the passwords 0 and 0x80000000 at session id 0.
Determinism, the only part of the claim the code satisfies, is included
as the first conjunct. -/
theorem make_commkey_session_collision :
    (∀ password session_id ticks : Nat,
      make_commkey password session_id ticks = make_commkey password session_id ticks) ∧
    make_commkey 0 100 50 = make_commkey 0 200 50 ∧ (100 : Nat) ≠ 200 ∧
    make_commkey 0 0 50 = make_commkey 2147483648 0 50 ∧ (0 : Nat) ≠ 2147483648 :=
  ⟨fun _ _ _ => rfl, by decide, by decide, by decide, by decide⟩

/-! ## Session state machine (`zkrust-core/src/session.rs`)

The `Session` is shared behind an `Arc` with atomics and an `RwLock`;
within one serialized history of operations it behaves as the pure state
machine modelled here. -/

/-- `SessionState` (`session.rs` lines 15-24). -/
inductive SessionState
  | disconnected
  | connected
  | authenticated
deriving DecidableEq

/-- The state held by `SessionInner` (`session.rs` lines 36-45). -/
structure Session where
  session_id : Nat
  reply_counter : Nat
  state : SessionState
deriving DecidableEq

namespace Session

/-- `Session::INITIAL_REPLY_ID` (`session.rs` line 49). -/
def INITIAL_REPLY_ID : Nat := 65534

/-- `Session::new` (`session.rs` lines 52-60). -/
def new : Session :=
  ⟨0, INITIAL_REPLY_ID, .disconnected⟩

/-- `Session::initialize` (`session.rs` lines 83-97); named `initSession`
here.  Fails with `InvalidSessionState` unless disconnected; otherwise
stores the given session id, resets the counter and becomes
connected. -/
def initSession (s : Session) (session_id : Nat) : Except Error Session :=
  if s.state ≠ .disconnected then
    .error (.invalidSessionState "Cannot initialize from current state")
  else
    .ok ⟨session_id, INITIAL_REPLY_ID, .connected⟩

/-- `Session::authenticate` (`session.rs` lines 100-111). -/
def authenticate (s : Session) : Except Error Session :=
  if s.state ≠ .connected then
    .error (.invalidSessionState "Cannot authenticate from current state")
  else
    .ok { s with state := .authenticated }

/-- `Session::close` (`session.rs` lines 114-118): unconditional reset. -/
def close (_s : Session) : Session :=
  ⟨0, INITIAL_REPLY_ID, .disconnected⟩

/-- `Session::next_reply_id` (`session.rs` lines 124-133): returns the
current counter, then stores the incremented value (`AtomicU16`
`fetch_add` wraps at `2 ^ 16`); if the emitted value was `>= 65535` the
counter is overwritten with 0 (which the wrap already produced). -/
def nextReplyId (s : Session) : Nat × Session :=
  let current := s.reply_counter
  let bumped := (current + 1) % 2 ^ 16
  let counter := if current ≥ 65535 then 0 else bumped
  (current, { s with reply_counter := counter })

end Session

/-- One call of the public mutating API, for reachability arguments.  A
failed call (an `Except.error` result) leaves the state unchanged, as in
the source where the guard returns before any mutation. -/
inductive SessionOp
  | initSession (session_id : Nat)
  | authenticate
  | close
  | nextReplyId
deriving DecidableEq

/-- Effect of one call on the session state. -/
def Session.applyOp (s : Session) : SessionOp → Session
  | .initSession sid =>
    match s.initSession sid with
    | .ok s' => s'
    | .error _ => s
  | .authenticate =>
    match s.authenticate with
    | .ok s' => s'
    | .error _ => s
  | .close => s.close
  | .nextReplyId => (s.nextReplyId).2

/-- The session state after a sequence of calls starting from `s`. -/
def Session.run (s : Session) (ops : List SessionOp) : Session :=
  ops.foldl Session.applyOp s

theorem Session.run_cons (s : Session) (op : SessionOp) (ops : List SessionOp) :
    Session.run s (op :: ops) = Session.run (s.applyOp op) ops := rfl

/-- Counterexample for C6: after `initialize(0)` (a legal call: the
source accepts any session id, including 0) the state is `Connected`
while `session_id` is 0, so "session_id is 0 exactly when state is
Disconnected" fails in a reachable state. -/
theorem session_id_zero_iff_disconnected_fails :
    (Session.run Session.new [SessionOp.initSession 0]).session_id = 0 ∧
    (Session.run Session.new [SessionOp.initSession 0]).state ≠ SessionState.disconnected := by
  decide

theorem Session.applyOp_disconnected_inv (s : Session) (op : SessionOp)
    (h : s.state = SessionState.disconnected → s.session_id = 0) :
    (s.applyOp op).state = SessionState.disconnected → (s.applyOp op).session_id = 0 := by
  cases op with
  | initSession sid =>
    simp only [Session.applyOp, Session.initSession]
    by_cases hs : s.state ≠ SessionState.disconnected
    · simp only [if_pos hs]
      exact h
    · simp [hs]
  | authenticate =>
    simp only [Session.applyOp, Session.authenticate]
    by_cases hs : s.state ≠ SessionState.connected
    · simpa [hs] using h
    · simp [hs]
  | close => simp [Session.applyOp, Session.close]
  | nextReplyId => simpa [Session.applyOp, Session.nextReplyId] using h

theorem Session.applyOp_zero_iff_inv (s : Session) (op : SessionOp)
    (hop : ∀ sid, op = SessionOp.initSession sid → sid ≠ 0)
    (h : s.session_id = 0 ↔ s.state = SessionState.disconnected) :
    ((s.applyOp op).session_id = 0 ↔ (s.applyOp op).state = SessionState.disconnected) := by
  cases op with
  | initSession sid =>
    have hsid : sid ≠ 0 := hop sid rfl
    simp only [Session.applyOp, Session.initSession]
    by_cases hs : s.state ≠ SessionState.disconnected
    · simpa [hs] using h
    · simp [hs, hsid]
  | authenticate =>
    simp only [Session.applyOp, Session.authenticate]
    by_cases hs : s.state ≠ SessionState.connected
    · simpa [hs] using h
    · have hcon : s.state = SessionState.connected := by simpa using hs
      have hid : s.session_id ≠ 0 := by
        intro h0
        have hd := h.mp h0
        rw [hcon] at hd
        cases hd
      simp [hs, hid]
  | close => simp [Session.applyOp, Session.close]
  | nextReplyId => simpa [Session.applyOp, Session.nextReplyId] using h

theorem Session.run_disconnected_inv (ops : List SessionOp) :
    ∀ s : Session, (s.state = SessionState.disconnected → s.session_id = 0) →
      ((Session.run s ops).state = SessionState.disconnected →
        (Session.run s ops).session_id = 0) := by
  induction ops with
  | nil => intro s h; exact h
  | cons op ops ih =>
    intro s h
    rw [Session.run_cons]
    exact ih _ (Session.applyOp_disconnected_inv s op h)

theorem Session.run_zero_iff_inv (ops : List SessionOp) :
    ∀ s : Session, (∀ sid, SessionOp.initSession sid ∈ ops → sid ≠ 0) →
      (s.session_id = 0 ↔ s.state = SessionState.disconnected) →
      ((Session.run s ops).session_id = 0 ↔
        (Session.run s ops).state = SessionState.disconnected) := by
  induction ops with
  | nil => intro s _ h; exact h
  | cons op ops ih =>
    intro s hops h
    rw [Session.run_cons]
    refine ih _ (fun sid hmem => hops sid (by simp [hmem])) ?_
    exact Session.applyOp_zero_iff_inv s op (fun sid hop => hops sid (by simp [hop])) h

/-- Claim C6 (amended): in every state reachable from a new session,
`session_id` is 0 whenever the state is `Disconnected`; the converse —
hence the claimed "exactly when" — holds provided `initialize` is never
called with session id 0 (the counterexample shows it fails for
`initialize(0)`). -/
theorem session_id_zero_iff_disconnected_amended (ops : List SessionOp) :
    ((Session.run Session.new ops).state = SessionState.disconnected →
      (Session.run Session.new ops).session_id = 0) ∧
    ((∀ sid, SessionOp.initSession sid ∈ ops → sid ≠ 0) →
      ((Session.run Session.new ops).session_id = 0 ↔
        (Session.run Session.new ops).state = SessionState.disconnected)) :=
  ⟨Session.run_disconnected_inv ops Session.new (fun _ => rfl),
   fun hops => Session.run_zero_iff_inv ops Session.new hops (by simp [Session.new])⟩

/-- Witness for the amended C6 at concrete call sequences. -/
theorem session_id_zero_iff_disconnected_amended_witness :
    ((Session.run Session.new [SessionOp.initSession 7]).session_id = 0 ↔
      (Session.run Session.new [SessionOp.initSession 7]).state = SessionState.disconnected) ∧
    ((Session.run Session.new [SessionOp.close]).state = SessionState.disconnected →
      (Session.run Session.new [SessionOp.close]).session_id = 0) :=
  ⟨(session_id_zero_iff_disconnected_amended [SessionOp.initSession 7]).2
      (by intro sid h; simp at h; omega),
   (session_id_zero_iff_disconnected_amended [SessionOp.close]).1⟩

/-- Reply id emitted by the `n`-th `next_reply_id` call (0-based) issued
from session state `s`. -/
def replyIdAt (s : Session) : Nat → Nat
  | 0 => (s.nextReplyId).1
  | n + 1 => replyIdAt (s.nextReplyId).2 n

theorem replyIdAt_counter (n : Nat) : ∀ (id c : Nat) (st : SessionState), c < 65536 →
    replyIdAt ⟨id, c, st⟩ n = (c + n) % 65536 := by
  induction n with
  | zero =>
    intro id c st hc
    simp only [replyIdAt, Session.nextReplyId]
    omega
  | succ n ih =>
    intro id c st hc
    have hstep : (Session.nextReplyId ⟨id, c, st⟩).2 = ⟨id, (c + 1) % 65536, st⟩ := by
      simp only [Session.nextReplyId]
      by_cases h : c ≥ 65535
      · have hc' : c = 65535 := by omega
        subst hc'
        simp
      · simp only [if_neg h]
        congr 1
    rw [replyIdAt, hstep, ih _ _ _ (by omega)]
    omega

/-- Claim C7: after `initialize` succeeds, the `n`-th `next_reply_id`
call yields `(65534 + n) % 65536`, i.e. the sequence 65534, 65535, 0, 1,
2, ...: each call returns the current counter then increments it, and
after emitting 65535 the counter is reset so the next call yields 0. -/
theorem next_reply_id_sequence (sid : Nat) (s : Session)
    (h : Session.new.initSession sid = Except.ok s) :
    ∀ n, replyIdAt s n = (65534 + n) % 65536 := by
  have hs : s = ⟨sid, 65534, SessionState.connected⟩ := by
    simp [Session.initSession, Session.new, Session.INITIAL_REPLY_ID] at h
    exact h.symm
  subst hs
  intro n
  exact replyIdAt_counter n sid 65534 SessionState.connected (by omega)

/-- Witness for C7: the first three reply ids after `initialize(1)` are
65534, 65535, 0. -/
theorem next_reply_id_sequence_witness :
    Session.new.initSession 1 = Except.ok ⟨1, 65534, SessionState.connected⟩ ∧
    replyIdAt ⟨1, 65534, SessionState.connected⟩ 0 = 65534 ∧
    replyIdAt ⟨1, 65534, SessionState.connected⟩ 1 = 65535 ∧
    replyIdAt ⟨1, 65534, SessionState.connected⟩ 2 = 0 :=
  ⟨by rfl,
   by simpa using next_reply_id_sequence 1 _ (by rfl) 0,
   by simpa using next_reply_id_sequence 1 _ (by rfl) 1,
   by simpa using next_reply_id_sequence 1 _ (by rfl) 2⟩

/-! ## TCP wrapper framing (`zkrust-transport/src/tcp.rs`) -/

/-- `TcpTransport::wrap_tcp_packet` (`tcp.rs` lines 83-103): magic words
`0x5050` and `0x8272`, then the payload length as `u32` little-endian
(`data.len() as u32` truncates, hence `% 2 ^ 32`), then the payload. -/
def wrap_tcp_packet (data : List Nat) : List Nat :=
  toLe16 0x5050 ++ toLe16 0x8272 ++ u32le (data.length % 2 ^ 32) ++ data

/-- `TcpTransport::unwrap_tcp_packet` (`tcp.rs` lines 106-126): a buffer
shorter than 8 bytes, or one whose first two little-endian words are not
the magic markers, is passed through unchanged; otherwise the 8-byte
header is stripped.  The source's return type is `Result` but every path
returns `Ok`, so the embedding returns the list directly. -/
def unwrap_tcp_packet (data : List Nat) : List Nat :=
  if data.length < 8 then data
  else
    let magic1 := fromLe16 (data.getD 0 0) (data.getD 1 0)
    let magic2 := fromLe16 (data.getD 2 0) (data.getD 3 0)
    if magic1 = 0x5050 ∧ magic2 = 0x8272 then data.drop 8 else data

theorem wrap_tcp_packet_eq (d : List Nat) :
    wrap_tcp_packet d = 80 :: 80 :: 114 :: 130 :: (d.length % 2 ^ 32 % 256) ::
      (d.length % 2 ^ 32 / 256 % 256) :: (d.length % 2 ^ 32 / 65536 % 256) ::
      (d.length % 2 ^ 32 / 16777216 % 256) :: d := rfl

theorem wrap_tcp_packet_lengthField (d : List Nat) :
    fromLe32 ((wrap_tcp_packet d).getD 4 0) ((wrap_tcp_packet d).getD 5 0)
      ((wrap_tcp_packet d).getD 6 0) ((wrap_tcp_packet d).getD 7 0) = d.length % 2 ^ 32 := by
  rw [wrap_tcp_packet_eq]
  simp only [List.getD_cons_succ, List.getD_cons_zero, fromLe32]
  omega

/-- Counterexample for C8 as stated: for a payload of `2 ^ 32` bytes the
32-bit length field (written by `data.len() as u32`) truncates to 0 and
does not equal the payload length. -/
theorem tcp_wrap_length_field_truncates :
    fromLe32 ((wrap_tcp_packet (List.replicate (2 ^ 32) 0)).getD 4 0)
      ((wrap_tcp_packet (List.replicate (2 ^ 32) 0)).getD 5 0)
      ((wrap_tcp_packet (List.replicate (2 ^ 32) 0)).getD 6 0)
      ((wrap_tcp_packet (List.replicate (2 ^ 32) 0)).getD 7 0) ≠
      (List.replicate (2 ^ 32) (0 : Nat)).length := by
  rw [wrap_tcp_packet_lengthField]
  rw [List.length_replicate]
  norm_num

/-- Claim C8 (amended): wrapping a payload `d` yields `8 + |d|` bytes
whose first two little-endian words are the magic markers `0x5050` and
`0x8272`, whose next 4 bytes are the little-endian 32-bit value
`|d| mod 2 ^ 32` (equal to `|d|` whenever `|d| < 2 ^ 32`; the `as u32`
cast truncates beyond that), and whose remaining bytes are `d`
unmodified; unwrapping the wrapped buffer recovers exactly `d`. -/
theorem wrap_tcp_packet_length (d : List Nat) : (wrap_tcp_packet d).length = 8 + d.length := by
  rw [wrap_tcp_packet_eq]
  simp only [List.length_cons]
  omega

theorem wrap_tcp_packet_magic1 (d : List Nat) :
    fromLe16 ((wrap_tcp_packet d).getD 0 0) ((wrap_tcp_packet d).getD 1 0) = 0x5050 := by
  rw [wrap_tcp_packet_eq]
  simp only [List.getD_cons_zero, List.getD_cons_succ]
  unfold fromLe16
  norm_num

theorem wrap_tcp_packet_magic2 (d : List Nat) :
    fromLe16 ((wrap_tcp_packet d).getD 2 0) ((wrap_tcp_packet d).getD 3 0) = 0x8272 := by
  rw [wrap_tcp_packet_eq]
  simp only [List.getD_cons_zero, List.getD_cons_succ]
  unfold fromLe16
  norm_num

theorem wrap_tcp_packet_drop (d : List Nat) : (wrap_tcp_packet d).drop 8 = d := by
  rw [wrap_tcp_packet_eq]
  rfl

theorem unwrap_wrap_tcp_packet (d : List Nat) :
    unwrap_tcp_packet (wrap_tcp_packet d) = d := by
  rw [wrap_tcp_packet_eq]
  unfold unwrap_tcp_packet
  rw [if_neg (by simp only [List.length_cons]; omega)]
  simp only [List.getD_cons_zero, List.getD_cons_succ]
  rw [if_pos (by constructor <;> (unfold fromLe16; norm_num))]
  rfl

theorem tcp_wrap_unwrap_roundtrip (d : List Nat) :
    (wrap_tcp_packet d).length = 8 + d.length ∧
    fromLe16 ((wrap_tcp_packet d).getD 0 0) ((wrap_tcp_packet d).getD 1 0) = 0x5050 ∧
    fromLe16 ((wrap_tcp_packet d).getD 2 0) ((wrap_tcp_packet d).getD 3 0) = 0x8272 ∧
    fromLe32 ((wrap_tcp_packet d).getD 4 0) ((wrap_tcp_packet d).getD 5 0)
      ((wrap_tcp_packet d).getD 6 0) ((wrap_tcp_packet d).getD 7 0) = d.length % 2 ^ 32 ∧
    (wrap_tcp_packet d).drop 8 = d ∧
    unwrap_tcp_packet (wrap_tcp_packet d) = d :=
  ⟨wrap_tcp_packet_length d, wrap_tcp_packet_magic1 d, wrap_tcp_packet_magic2 d,
   wrap_tcp_packet_lengthField d, wrap_tcp_packet_drop d, unwrap_wrap_tcp_packet d⟩

/-! ## Connect handshake dispatch (`zkrust/src/device.rs`) -/

/-- The high-level `Error` enum of the `zkrust` crate
(`zkrust/src/error.rs` lines 5-24). -/
inductive DeviceError
  | core (e : Error)
  | transport (msg : String)
  | types (msg : String)
  | notConnected
  | notSupported (msg : String)
  | invalidResponse (msg : String)
deriving DecidableEq

/-- The dispatch on the authentication response inside `Device::connect`
(`device.rs` lines 146-166): `AckOk` initializes the session with the
response's session id; `AckError` yields
`InvalidResponse("Authentication failed - incorrect password")`; every
other command (including `AckErrorCmd`, `AckErrorInit`, `AckErrorData`)
falls into the catch-all `InvalidResponse("Unexpected auth response:
...")` arm, whose message is modelled without the formatted command. -/
def authResponseDispatch (response : Packet) : Except DeviceError Nat :=
  match response.command with
  | .AckOk => .ok response.session_id
  | .AckError => .error (.invalidResponse "Authentication failed - incorrect password")
  | _ => .error (.invalidResponse "Unexpected auth response")

/-- Counterexample for C9: an `AckError` response to the auth request
(an error response per `Command::is_error`) makes the handshake fail
with `InvalidResponse`, not with the `AuthenticationFailed` error kind
(which the code declares but never constructs); and the other error
acks, e.g. `AckErrorCmd`, fall into the "unexpected response" arm. -/
theorem auth_error_not_authentication_failed :
    Command.is_error Command.AckError = true ∧
    authResponseDispatch ⟨Command.AckError, 0, 0, []⟩ ≠
      Except.error (DeviceError.core Error.authenticationFailed) ∧
    Command.is_error Command.AckErrorCmd = true ∧
    authResponseDispatch ⟨Command.AckErrorCmd, 0, 0, []⟩ ≠
      Except.error (DeviceError.core Error.authenticationFailed) := by
  refine ⟨rfl, ?_, rfl, ?_⟩ <;> (intro h; simp [authResponseDispatch] at h)

/-- Claim C9 (amended): when the device's response to the authentication
request is `AckError`, the handshake fails with the high-level
`InvalidResponse` error carrying the authentication-failure message; the
remaining error responses (`AckErrorCmd`, `AckErrorInit`,
`AckErrorData`) fail with the "unexpected auth response"
`InvalidResponse` error.  `AuthenticationFailed` is never produced. -/
theorem auth_error_dispatch (p : Packet) :
    (p.command = Command.AckError →
      authResponseDispatch p =
        Except.error (DeviceError.invalidResponse "Authentication failed - incorrect password")) ∧
    (Command.is_error p.command = true → p.command ≠ Command.AckError →
      authResponseDispatch p =
        Except.error (DeviceError.invalidResponse "Unexpected auth response")) := by
  obtain ⟨c, sid, rid, pl⟩ := p
  cases c <;> simp [authResponseDispatch, Command.is_error]

/-- Witness for the amended C9 at concrete responses. -/
theorem auth_error_dispatch_witness :
    authResponseDispatch ⟨Command.AckError, 0, 0, []⟩ =
      Except.error (DeviceError.invalidResponse "Authentication failed - incorrect password") ∧
    authResponseDispatch ⟨Command.AckErrorCmd, 0, 0, []⟩ =
      Except.error (DeviceError.invalidResponse "Unexpected auth response") :=
  ⟨(auth_error_dispatch ⟨Command.AckError, 0, 0, []⟩).1 rfl,
   (auth_error_dispatch ⟨Command.AckErrorCmd, 0, 0, []⟩).2 (by decide) (by decide)⟩

end ZKRust
